import Mathlib

/-!
Shallow embedding of the multi_log crate (src/lib.rs): a fan-out logger
that delegates the log::Log capability (enabled, log, flush) to an ordered
list of child loggers, plus the facade integration (set_max_level,
set_boxed_logger) used by MultiLogger::init.

Side effects on children are observed through traces of events labeled by
the child's position in the construction order.
-/

namespace MultiLog

/-- Severity levels of the log facade (log::Level). -/
inductive Level where
  | error
  | warn
  | info
  | debug
  | trace
  deriving DecidableEq

/-- Level filters of the log facade (log::LevelFilter), including off. -/
inductive LevelFilter where
  | off
  | error
  | warn
  | info
  | debug
  | trace
  deriving DecidableEq

/-- log::Level::to_level_filter: each level maps to its corresponding filter. -/
def Level.to_level_filter : Level → LevelFilter
  | .error => .error
  | .warn => .warn
  | .info => .info
  | .debug => .debug
  | .trace => .trace

/-- Metadata of a record (log::Metadata): level and target. -/
structure Metadata where
  level : Level
  target : String
  deriving DecidableEq

/-- A log record (log::Record): metadata plus message arguments. -/
structure Record where
  metadata : Metadata
  args : String
  deriving DecidableEq

/-- A child logger (a boxed log::Log trait object). Its observable decision
surface is its enabled predicate; its log and flush side effects are
recorded in traces. -/
structure ChildLogger where
  enabled : Metadata → Bool

/-- The MultiLogger struct: an ordered list of child loggers. -/
structure MultiLogger where
  loggers : List ChildLogger

/-- MultiLogger::new: wraps the given loggers. -/
def MultiLogger.new (loggers : List ChildLogger) : MultiLogger :=
  { loggers := loggers }

/-- MultiLogger::enabled: self.loggers.iter().any(|logger| logger.enabled(metadata)). -/
def MultiLogger.enabled (self : MultiLogger) (metadata : Metadata) : Bool :=
  self.loggers.any (fun logger => logger.enabled metadata)

/-- Observable events of one facade call, labeled by child index in
construction order. -/
inductive Event where
  | enabledEv (idx : Nat) (metadata : Metadata)
  | logEv (idx : Nat) (record : Record)
  | flushEv (idx : Nat)
  deriving DecidableEq

/-- Trace of MultiLogger::log's for_each loop over the loggers starting at
child index idx: each child's log is invoked once, in order, on the record. -/
def logTraceFrom (idx : Nat) (record : Record) : List ChildLogger → List Event
  | [] => []
  | _ :: rest => Event.logEv idx record :: logTraceFrom (idx + 1) record rest

/-- MultiLogger::log: self.loggers.iter().for_each(|logger| logger.log(record)),
observed as the trace of child invocations. -/
def MultiLogger.logTrace (self : MultiLogger) (record : Record) : List Event :=
  logTraceFrom 0 record self.loggers

/-- Trace of MultiLogger::flush's for_each loop starting at child index idx. -/
def flushTraceFrom (idx : Nat) : List ChildLogger → List Event
  | [] => []
  | _ :: rest => Event.flushEv idx :: flushTraceFrom (idx + 1) rest

/-- MultiLogger::flush: self.loggers.iter().for_each(|logger| logger.flush()),
observed as the trace of child invocations. -/
def MultiLogger.flushTrace (self : MultiLogger) : List Event :=
  flushTraceFrom 0 self.loggers

/-- Operational run of Iterator::any inside MultiLogger::enabled, starting at
child index idx: returns the boolean result together with the indices of the
children whose enabled was queried, in query order. Iterator::any stops at
the first child that returns true. -/
def enabledRunFrom (idx : Nat) (metadata : Metadata) : List ChildLogger → Bool × List Nat
  | [] => (false, [])
  | logger :: rest =>
    if logger.enabled metadata then (true, [idx])
    else
      let r := enabledRunFrom (idx + 1) metadata rest
      (r.1, idx :: r.2)

/-- MultiLogger::enabled observed operationally: result and queried children. -/
def MultiLogger.enabledRun (self : MultiLogger) (metadata : Metadata) : Bool × List Nat :=
  enabledRunFrom 0 metadata self.loggers

/-- log::SetLoggerError: returned when a global logger was already installed. -/
inductive SetLoggerError where
  | alreadySet
  deriving DecidableEq

/-- Global state of the log facade: the max level filter and the installed sink. -/
structure FacadeState where
  maxLevel : LevelFilter
  sink : Option MultiLogger

/-- log::set_max_level: unconditionally sets the global max level filter. -/
def set_max_level (st : FacadeState) (f : LevelFilter) : FacadeState :=
  { st with maxLevel := f }

/-- log::set_boxed_logger: installs the logger if none is installed yet,
otherwise leaves the state unchanged and returns SetLoggerError. -/
def set_boxed_logger (st : FacadeState) (l : MultiLogger) :
    FacadeState × Except SetLoggerError Unit :=
  match st.sink with
  | some _ => (st, Except.error SetLoggerError.alreadySet)
  | none => ({ st with sink := some l }, Except.ok ())

/-- MultiLogger::init: log::set_max_level(level.to_level_filter()) followed by
log::set_boxed_logger(Box::new(MultiLogger::new(loggers))). -/
def MultiLogger.init (st : FacadeState) (loggers : List ChildLogger) (level : Level) :
    FacadeState × Except SetLoggerError Unit :=
  set_boxed_logger (set_max_level st level.to_level_filter) (MultiLogger.new loggers)

/-- A facade call driven into the MultiLogger: one of the three log::Log
capability operations. -/
inductive Call where
  | enabledC (metadata : Metadata)
  | logC (record : Record)
  | flushC
  deriving DecidableEq

/-- Observable non-trace output of one capability call. -/
inductive Obs where
  | boolObs (b : Bool)
  | unitObs
  deriving DecidableEq

/-- One capability call on the MultiLogger: every method takes the receiver
by shared reference and performs no interior mutation, so the resulting
MultiLogger value is returned alongside the call's observation. -/
def callStep (m : MultiLogger) : Call → MultiLogger × (List Event × Obs)
  | .enabledC md =>
    let r := m.enabledRun md
    (m, (r.2.map (fun i => Event.enabledEv i md), Obs.boolObs r.1))
  | .logC record => (m, (m.logTrace record, Obs.unitObs))
  | .flushC => (m, (m.flushTrace, Obs.unitObs))

/-- A sequence of capability calls threaded through the MultiLogger state. -/
def runCalls (m : MultiLogger) : List Call → MultiLogger × List (List Event × Obs)
  | [] => (m, [])
  | c :: cs =>
    let s := callStep m c
    let r := runCalls s.1 cs
    (r.1, s.2 :: r.2)

/-- Order-preserving interleaving of two event sequences, as produced by two
threads whose individual event orders are preserved. -/
inductive Interleave2 : List Event → List Event → List Event → Prop where
  | nil : Interleave2 [] [] []
  | left {a : Event} {xs ys zs : List Event} :
      Interleave2 xs ys zs → Interleave2 (a :: xs) ys (a :: zs)
  | right {a : Event} {xs ys zs : List Event} :
      Interleave2 xs ys zs → Interleave2 xs (a :: ys) (a :: zs)

/-- Order-preserving interleaving of any number of per-thread event
sequences: the global event order of a concurrent, unserialized schedule. -/
inductive InterleavingN : List (List Event) → List Event → Prop where
  | nil : InterleavingN [] []
  | cons {t rest out : List Event} {ts : List (List Event)} :
      Interleave2 t rest out → InterleavingN ts rest → InterleavingN (t :: ts) out

/-- The event sequence of one thread that delivers the records rs to the
MultiLogger by successive log calls. -/
def threadTrace (m : MultiLogger) (rs : List Record) : List Event :=
  (rs.map (fun r => m.logTrace r)).flatten

/-- Recognizes a log invocation on the child at index i. -/
def isChildLog (i : Nat) : Event → Bool
  | .logEv j _ => j == i
  | _ => false

/-- A child logger that is enabled for every metadata. -/
def wChildT : ChildLogger := { enabled := fun _ => true }

/-- A child logger that is enabled for no metadata. -/
def wChildF : ChildLogger := { enabled := fun _ => false }

/-- A concrete metadata value. -/
def wMd : Metadata := { level := Level.info, target := "t" }

/-- A concrete record value. -/
def wRec : Record := { metadata := wMd, args := "m" }

/-- A facade state with no sink installed. -/
def stFree : FacadeState := { maxLevel := LevelFilter.off, sink := none }

/-- A facade state with a sink already installed. -/
def stBusy : FacadeState :=
  { maxLevel := LevelFilter.off, sink := some (MultiLogger.new []) }

/-! Helper lemmas shared by the claim theorems. -/

theorem logTraceFrom_eq (r : Record) :
    ∀ (s : Nat) (ls : List ChildLogger),
      logTraceFrom s r ls = (List.range' s ls.length).map (fun i => Event.logEv i r)
  | _, [] => rfl
  | s, _ :: rest => by
    simp only [logTraceFrom, List.length_cons, List.range'_succ, List.map_cons]
    exact congrArg _ (logTraceFrom_eq r (s + 1) rest)

theorem flushTraceFrom_eq :
    ∀ (s : Nat) (ls : List ChildLogger),
      flushTraceFrom s ls = (List.range' s ls.length).map Event.flushEv
  | _, [] => rfl
  | s, _ :: rest => by
    simp only [flushTraceFrom, List.length_cons, List.range'_succ, List.map_cons]
    exact congrArg _ (flushTraceFrom_eq (s + 1) rest)

theorem logEv_injective (r : Record) :
    Function.Injective (fun i => Event.logEv i r) := by
  intro a b h
  simpa using h

theorem flushEv_injective : Function.Injective Event.flushEv := by
  intro a b h
  simpa using h

/-- C1: MultiLogger::log invokes each child's log exactly once with the same
record, strictly sequentially in construction order: the trace is the
in-order sequence of one log invocation per child, and for every child index
the trace holds exactly one log event for it, carrying that record. -/
theorem MultiLogger.log_broadcast (m : MultiLogger) (r : Record) :
    m.logTrace r = (List.range m.loggers.length).map (fun i => Event.logEv i r)
    ∧ ∀ i, i < m.loggers.length → (m.logTrace r).count (Event.logEv i r) = 1 := by
  have htr : m.logTrace r = (List.range m.loggers.length).map (fun i => Event.logEv i r) := by
    rw [MultiLogger.logTrace, logTraceFrom_eq, List.range_eq_range']
  refine ⟨htr, fun i hi => ?_⟩
  rw [htr]
  exact List.count_eq_one_of_mem
    ((List.nodup_range _).map (logEv_injective r))
    (List.mem_map_of_mem _ (List.mem_range.mpr hi))

theorem log_broadcast_witness :
    ((MultiLogger.new [wChildT, wChildF]).logTrace wRec).count (Event.logEv 1 wRec) = 1 :=
  (MultiLogger.log_broadcast (MultiLogger.new [wChildT, wChildF]) wRec).2 1 (by decide)

/-- C2: MultiLogger::enabled returns true iff at least one child reports
enabled for the metadata, false iff every child reports false, and false on
an empty child list. -/
theorem MultiLogger.enabled_iff_any (m : MultiLogger) (md : Metadata) :
    (m.enabled md = true ↔ ∃ l ∈ m.loggers, l.enabled md = true)
    ∧ (m.enabled md = false ↔ ∀ l ∈ m.loggers, l.enabled md = false)
    ∧ (MultiLogger.new []).enabled md = false := by
  refine ⟨?_, ?_, rfl⟩
  · simp [MultiLogger.enabled, List.any_eq_true]
  · simp [MultiLogger.enabled, List.any_eq_false]

theorem enabled_iff_any_witness :
    (MultiLogger.new []).enabled wMd = false :=
  (MultiLogger.enabled_iff_any (MultiLogger.new []) wMd).2.2

/-- C3: MultiLogger::flush invokes flush exactly once on each child, in
construction order: the trace is the in-order sequence of one flush
invocation per child, with exactly one flush event per child index. -/
theorem MultiLogger.flush_broadcast (m : MultiLogger) :
    m.flushTrace = (List.range m.loggers.length).map Event.flushEv
    ∧ ∀ i, i < m.loggers.length → m.flushTrace.count (Event.flushEv i) = 1 := by
  have htr : m.flushTrace = (List.range m.loggers.length).map Event.flushEv := by
    rw [MultiLogger.flushTrace, flushTraceFrom_eq, List.range_eq_range']
  refine ⟨htr, fun i hi => ?_⟩
  rw [htr]
  exact List.count_eq_one_of_mem
    ((List.nodup_range _).map flushEv_injective)
    (List.mem_map_of_mem _ (List.mem_range.mpr hi))

theorem flush_broadcast_witness :
    (MultiLogger.new [wChildT, wChildF]).flushTrace.count (Event.flushEv 0) = 1 :=
  (MultiLogger.flush_broadcast (MultiLogger.new [wChildT, wChildF])).2 0 (by decide)

/-- C5: MultiLogger::new yields a MultiLogger carrying exactly the supplied
children in order; an empty list yields a no-op sink whose enabled is always
false and whose log and flush perform no child invocations. -/
theorem MultiLogger.new_spec (loggers : List ChildLogger) (md : Metadata) (r : Record) :
    (MultiLogger.new loggers).loggers = loggers
    ∧ (MultiLogger.new []).enabled md = false
    ∧ (MultiLogger.new []).logTrace r = []
    ∧ (MultiLogger.new []).flushTrace = [] :=
  ⟨rfl, rfl, rfl, rfl⟩

/-- C6: MultiLogger::log performs no per-child enablement pre-check: the
trace depends only on the number of children (not on any enabled function),
and a child's log invocation is present even when that child's enabled, or
the MultiLogger's own enabled, is false for the record's metadata. -/
theorem MultiLogger.log_no_enabled_check (m m2 : MultiLogger) (r : Record)
    (hlen : m.loggers.length = m2.loggers.length) :
    m.logTrace r = m2.logTrace r
    ∧ ∀ i (hi : i < m.loggers.length),
        ((m.loggers.get ⟨i, hi⟩).enabled r.metadata = false ∨ m.enabled r.metadata = false) →
        Event.logEv i r ∈ m.logTrace r := by
  constructor
  · rw [MultiLogger.logTrace, logTraceFrom_eq, MultiLogger.logTrace, logTraceFrom_eq, hlen]
  · intro i hi _
    rw [MultiLogger.logTrace, logTraceFrom_eq, ← List.range_eq_range']
    exact List.mem_map_of_mem _ (List.mem_range.mpr hi)

theorem log_no_enabled_check_witness :
    Event.logEv 0 wRec ∈ (MultiLogger.new [wChildF]).logTrace wRec :=
  (MultiLogger.log_no_enabled_check (MultiLogger.new [wChildF]) (MultiLogger.new [wChildT])
    wRec rfl).2 0 (by decide) (Or.inl rfl)

/-- C4: MultiLogger::init builds a MultiLogger from the children, sets the
facade's max level to the level's corresponding filter, and registers the
MultiLogger as the global sink; it succeeds iff no sink was installed, and
its only failure outcome is the facade's already-installed error, returned
directly. -/
theorem MultiLogger.init_spec (st : FacadeState) (loggers : List ChildLogger) (level : Level) :
    ((MultiLogger.init st loggers level).2 = Except.ok () ↔ st.sink = none)
    ∧ (st.sink = none →
        (MultiLogger.init st loggers level).1 =
          { maxLevel := level.to_level_filter, sink := some (MultiLogger.new loggers) })
    ∧ ((MultiLogger.init st loggers level).2 = Except.ok ()
        ∨ (MultiLogger.init st loggers level).2 = Except.error SetLoggerError.alreadySet) := by
  cases hs : st.sink with
  | none =>
    refine ⟨by simp [MultiLogger.init, set_boxed_logger, set_max_level, hs], ?_, ?_⟩
    · intro _
      simp [MultiLogger.init, set_boxed_logger, set_max_level, hs]
    · exact Or.inl (by simp [MultiLogger.init, set_boxed_logger, set_max_level, hs])
  | some s =>
    refine ⟨by simp [MultiLogger.init, set_boxed_logger, set_max_level, hs], ?_, ?_⟩
    · intro h
      exact absurd h (Option.some_ne_none s)
    · exact Or.inr (by simp [MultiLogger.init, set_boxed_logger, set_max_level, hs])

theorem init_spec_witness :
    (MultiLogger.init stFree [wChildT] Level.info).1 =
      { maxLevel := Level.info.to_level_filter,
        sink := some (MultiLogger.new [wChildT]) } :=
  (MultiLogger.init_spec stFree [wChildT] Level.info).2.1 rfl

/-- C10: MultiLogger::init sets the facade's max level before attempting
sink registration: the resulting max level equals the level's corresponding
filter on every input, including those where a sink was already installed
and init returns the already-installed error. -/
theorem MultiLogger.init_threshold_not_atomic (st : FacadeState)
    (loggers : List ChildLogger) (level : Level) :
    (MultiLogger.init st loggers level).1.maxLevel = level.to_level_filter
    ∧ ∀ s, st.sink = some s →
        (MultiLogger.init st loggers level).2 = Except.error SetLoggerError.alreadySet
        ∧ (MultiLogger.init st loggers level).1.maxLevel = level.to_level_filter := by
  cases hs : st.sink with
  | none =>
    refine ⟨by simp [MultiLogger.init, set_boxed_logger, set_max_level, hs], ?_⟩
    intro s h
    exact Option.noConfusion h
  | some s =>
    refine ⟨by simp [MultiLogger.init, set_boxed_logger, set_max_level, hs], ?_⟩
    intro s2 _
    exact ⟨by simp [MultiLogger.init, set_boxed_logger, set_max_level, hs],
      by simp [MultiLogger.init, set_boxed_logger, set_max_level, hs]⟩

theorem init_threshold_not_atomic_witness :
    (MultiLogger.init stBusy [wChildT] Level.debug).2 =
      Except.error SetLoggerError.alreadySet
    ∧ (MultiLogger.init stBusy [wChildT] Level.debug).1.maxLevel =
      Level.debug.to_level_filter :=
  (MultiLogger.init_threshold_not_atomic stBusy [wChildT] Level.debug).2
    (MultiLogger.new []) rfl

theorem callStep_fst (m : MultiLogger) (c : Call) : (callStep m c).1 = m := by
  cases c <;> rfl

/-- C7: the MultiLogger holds no observable state that changes across
operations: running any sequence of enabled/log/flush calls leaves the
MultiLogger unchanged, and each call's observation depends only on its
arguments and the fixed children. -/
theorem MultiLogger.stateless_runCalls (m : MultiLogger) (cs : List Call) :
    (runCalls m cs).1 = m ∧ (runCalls m cs).2 = cs.map (fun c => (callStep m c).2) := by
  induction cs with
  | nil => exact ⟨rfl, rfl⟩
  | cons c cs ih =>
    constructor
    · show (runCalls (callStep m c).1 cs).1 = m
      rw [callStep_fst]
      exact ih.1
    · show (callStep m c).2 :: (runCalls (callStep m c).1 cs).2 = _
      rw [callStep_fst, List.map_cons]
      exact congrArg _ ih.2

theorem enabledRunFrom_fst (md : Metadata) :
    ∀ (s : Nat) (ls : List ChildLogger),
      (enabledRunFrom s md ls).1 = ls.any (fun l => l.enabled md)
  | _, [] => rfl
  | s, l :: rest => by
    by_cases hl : l.enabled md
    · simp [enabledRunFrom, hl]
    · simp [enabledRunFrom, hl, enabledRunFrom_fst md (s + 1) rest]

theorem enabledRun_fst (m : MultiLogger) (md : Metadata) :
    (m.enabledRun md).1 = m.enabled md :=
  enabledRunFrom_fst md 0 m.loggers

theorem enabledRunFrom_short (md : Metadata) :
    ∀ (ls : List ChildLogger) (s i : Nat) (hi : i < ls.length),
      (∀ j (hj : j < i), (ls.get ⟨j, Nat.lt_trans hj hi⟩).enabled md = false) →
      (ls.get ⟨i, hi⟩).enabled md = true →
      (enabledRunFrom s md ls).2 = List.range' s (i + 1) := by
  intro ls
  induction ls with
  | nil => intro s i hi; exact absurd hi (Nat.not_lt_zero i)
  | cons l rest ih =>
    intro s i hi hbefore hat
    by_cases hl : l.enabled md = true
    · have hi0 : i = 0 := by
        by_contra hne
        have h0 : 0 < i := Nat.pos_of_ne_zero hne
        have hf : l.enabled md = false := hbefore 0 h0
        rw [hl] at hf
        exact Bool.noConfusion hf
      subst hi0
      simp [enabledRunFrom, hl]
    · have hl' : l.enabled md = false := by
        cases hb : l.enabled md
        · rfl
        · exact absurd hb hl
      have hi0 : i ≠ 0 := by
        intro h0
        subst h0
        have hf : l.enabled md = true := hat
        rw [hl'] at hf
        exact Bool.noConfusion hf
      obtain ⟨i2, rfl⟩ : ∃ i2, i = i2 + 1 := ⟨i - 1, by omega⟩
      have hi2 : i2 < rest.length := by
        have hc := hi
        simp only [List.length_cons] at hc
        omega
      have hb2 : ∀ j (hj : j < i2), (rest.get ⟨j, Nat.lt_trans hj hi2⟩).enabled md = false :=
        fun j hj => hbefore (j + 1) (Nat.succ_lt_succ hj)
      have hat2 : (rest.get ⟨i2, hi2⟩).enabled md = true := hat
      have hrec := ih (s + 1) i2 hi2 hb2 hat2
      simp only [enabledRunFrom, hl', if_false, Bool.false_eq_true]
      rw [hrec]
      simp [List.range'_succ]

/-- C9: MultiLogger::enabled short-circuits: when the child at index i is
the first whose enabled is true for the metadata, the queried children are
exactly indices 0 through i, so no child past i is queried. -/
theorem MultiLogger.enabled_short_circuit (m : MultiLogger) (md : Metadata) (i : Nat)
    (hi : i < m.loggers.length)
    (hbefore : ∀ j (hj : j < i), (m.loggers.get ⟨j, Nat.lt_trans hj hi⟩).enabled md = false)
    (hat : (m.loggers.get ⟨i, hi⟩).enabled md = true) :
    (m.enabledRun md).2 = List.range (i + 1)
    ∧ ∀ j ∈ (m.enabledRun md).2, ¬ i < j := by
  have h2 : (m.enabledRun md).2 = List.range (i + 1) := by
    rw [MultiLogger.enabledRun, enabledRunFrom_short md m.loggers 0 i hi hbefore hat,
      ← List.range_eq_range']
  refine ⟨h2, ?_⟩
  intro j hj
  rw [h2] at hj
  have := List.mem_range.mp hj
  omega

theorem enabled_short_circuit_witness :
    ((MultiLogger.new [wChildT, wChildF]).enabledRun wMd).2 = List.range 1
    ∧ ∀ j ∈ ((MultiLogger.new [wChildT, wChildF]).enabledRun wMd).2, ¬ 0 < j :=
  MultiLogger.enabled_short_circuit (MultiLogger.new [wChildT, wChildF]) wMd 0 (by decide)
    (fun j hj => absurd hj (Nat.not_lt_zero j)) rfl

theorem Interleave2.countP_add (p : Event → Bool) {xs ys zs : List Event}
    (h : Interleave2 xs ys zs) : zs.countP p = xs.countP p + ys.countP p := by
  induction h with
  | nil => rfl
  | left h ih =>
    rw [List.countP_cons, List.countP_cons, ih]
    omega
  | right h ih =>
    rw [List.countP_cons, List.countP_cons, ih]
    omega

theorem InterleavingN.countP_sum (p : Event → Bool) {ts : List (List Event)}
    {out : List Event} (h : InterleavingN ts out) :
    out.countP p = (ts.map (List.countP p)).sum := by
  induction h with
  | nil => rfl
  | cons h2 hn ih =>
    rw [List.map_cons, List.sum_cons, Interleave2.countP_add p h2, ih]

theorem countP_logTraceFrom (i : Nat) (r : Record) :
    ∀ (s : Nat) (ls : List ChildLogger),
      (logTraceFrom s r ls).countP (isChildLog i) =
        if s ≤ i ∧ i < s + ls.length then 1 else 0
  | s, [] => by
    rw [logTraceFrom, List.countP_nil]
    simp only [List.length_nil, Nat.add_zero]
    rw [if_neg (by omega)]
  | s, logger :: rest => by
    rw [logTraceFrom, List.countP_cons, countP_logTraceFrom i r (s + 1) rest]
    simp only [isChildLog, List.length_cons, beq_iff_eq]
    split_ifs <;> omega

theorem countP_logTrace (m : MultiLogger) (r : Record) (i : Nat)
    (hi : i < m.loggers.length) :
    (m.logTrace r).countP (isChildLog i) = 1 := by
  rw [MultiLogger.logTrace, countP_logTraceFrom i r 0 m.loggers,
    if_pos ⟨Nat.zero_le i, by omega⟩]

theorem countP_threadTrace (m : MultiLogger) (i : Nat) (hi : i < m.loggers.length) :
    ∀ rs : List Record, (threadTrace m rs).countP (isChildLog i) = rs.length
  | [] => rfl
  | r :: rs => by
    have hrec := countP_threadTrace m i hi rs
    rw [threadTrace] at hrec
    rw [threadTrace, List.map_cons, List.flatten_cons, List.countP_append,
      countP_logTrace m r i hi, hrec, List.length_cons]
    omega

/-- C8: under concurrent invocation of log from any number of threads (any
order-preserving interleaving of the per-thread event sequences), every
admitted record is delivered to every child with no duplication and no
loss: each child's total log-invocation count equals the total number of
records across all threads. -/
theorem MultiLogger.concurrent_log_count (m : MultiLogger) (rss : List (List Record))
    (out : List Event) (h : InterleavingN (rss.map (threadTrace m)) out)
    (i : Nat) (hi : i < m.loggers.length) :
    out.countP (isChildLog i) = (rss.map List.length).sum := by
  rw [InterleavingN.countP_sum (isChildLog i) h, List.map_map]
  have hmap : ∀ rss2 : List (List Record),
      rss2.map (List.countP (isChildLog i) ∘ threadTrace m) = rss2.map List.length := by
    intro rss2
    induction rss2 with
    | nil => rfl
    | cons rs rss2 ih =>
      rw [List.map_cons, List.map_cons, ih]
      have hh : (List.countP (isChildLog i) ∘ threadTrace m) rs = rs.length :=
        countP_threadTrace m i hi rs
      rw [hh]
  rw [hmap]

theorem concurrent_log_count_witness :
    ([Event.logEv 0 wRec, Event.logEv 0 wRec].countP (isChildLog 0))
      = ([[wRec], [wRec]].map List.length).sum :=
  MultiLogger.concurrent_log_count (MultiLogger.new [wChildT]) [[wRec], [wRec]]
    [Event.logEv 0 wRec, Event.logEv 0 wRec]
    (InterleavingN.cons (Interleave2.left (Interleave2.right Interleave2.nil))
      (InterleavingN.cons (Interleave2.left Interleave2.nil) InterleavingN.nil))
    0 (by decide)

end MultiLog
